import Mathlib

/-!
# Verification of the trade lifecycle evaluator (`evaluate_signals.py`)

A shallow embedding of `apply_state_machine` from `src/evaluate_signals.py`
over exact rationals.  Signals are records whose required fields are
`Option`-valued (Python's `sig.get(k)` with its falsy-value test), candles
carry timestamp / high / low (the only fields the state machine reads),
and the per-candle loop becomes a step function folded over the candle
list, with the `break` statements modelled by a `finished` flag.  Database
writes become a returned `Update` record (the patch) and `log_event` calls
become an ordered list of `Event`s.
-/

namespace TradingBot

/-- Signal lifecycle status, the string values `"open" | "tp1" | "tp2" |
"tp3" | "sl" | "close"` of the `status` column. -/
inductive Status where
  | open_ : Status
  | tp1 : Status
  | tp2 : Status
  | tp3 : Status
  | sl : Status
  | close : Status
deriving DecidableEq, Repr

/-- One 1-minute candle; the state machine only reads `ts`, `high`, `low`. -/
structure Candle where
  ts : Nat
  high : ℚ
  low : ℚ
deriving DecidableEq, Repr

/-- One `log_event` call: event type, price, candle timestamp, the
`fraction` entry of `details` (when the source logs one), and the missing
fields named in an `error` event's details. -/
structure Event where
  event : String
  price : Option ℚ
  candle_ts : Option Nat
  fraction : Option ℚ
  missing : List String
deriving DecidableEq, Repr

/-- A raw signal row as the evaluator receives it: required columns are
`Option`s (absent key ≙ `none`); `status` and `created_at` are always
present in rows handed to the evaluator. -/
structure RawSignal where
  exchange : Option String
  symbol : Option String
  timeframe : Option String
  direction : Option String
  entry : Option ℚ
  stop_loss : Option ℚ
  tp1 : Option ℚ
  tp2 : Option ℚ
  tp3 : Option ℚ
  status : Status
  stop_loss_initial : Option ℚ
  entered_at : Option Nat
  partial_realized : Option ℚ
  partial_profit : Option ℚ
  mfe : Option ℚ
  mae : Option ℚ
deriving DecidableEq, Repr

def POLICY_VERSION : String := "v1_conservative_SL_priority"

def TP1_FRAC : ℚ := 33/100
def TP2_FRAC : ℚ := 33/100
def TP3_FRAC : ℚ := 34/100

/-- Python truthiness test `not sig.get(k)` on an optional string:
missing or empty is falsy. -/
def falsyStr : Option String → Bool
  | none => true
  | some s => s = ""

/-- Python truthiness test `not sig.get(k)` on an optional numeric:
missing or zero is falsy. -/
def falsyQ : Option ℚ → Bool
  | none => true
  | some q => q = 0

/-- `missing = [k for k in required if not sig.get(k)]` with the source's
field order. -/
def requiredMissing (sig : RawSignal) : List String :=
  (if falsyStr sig.exchange then ["exchange"] else []) ++
  (if falsyStr sig.symbol then ["symbol"] else []) ++
  (if falsyStr sig.timeframe then ["timeframe"] else []) ++
  (if falsyStr sig.direction then ["direction"] else []) ++
  (if falsyQ sig.entry then ["entry"] else []) ++
  (if falsyQ sig.stop_loss then ["stop_loss"] else []) ++
  (if falsyQ sig.tp1 then ["tp1"] else []) ++
  (if falsyQ sig.tp2 then ["tp2"] else []) ++
  (if falsyQ sig.tp3 then ["tp3"] else [])

/-- The single `error` event logged on the validation path. -/
def errorEvent (ms : List String) : Event :=
  { event := "error", price := none, candle_ts := none, fraction := none, missing := ms }

/-- Python `x or d` on an optional rational (`float(sig.get(k) or d)`):
missing or zero falls back to the default. -/
def orQ : Option ℚ → ℚ → ℚ
  | none, d => d
  | some q, d => if q = 0 then d else q

/-- Python's `abs` on a rational, written so the kernel can evaluate it. -/
def rabs (q : ℚ) : ℚ := if q < 0 then -q else q

/-- Python's two-argument `max` on rationals. -/
def pymax (a b : ℚ) : ℚ := if b < a then a else b

theorem pymax_eq_max (a b : ℚ) : pymax a b = max a b := by
  unfold pymax
  rcases lt_or_le b a with h | h
  · rw [if_pos h, max_eq_left (le_of_lt h)]
  · rw [if_neg (not_lt.mpr h), max_eq_right h]

theorem rabs_eq_abs (q : ℚ) : rabs q = |q| := by
  unfold rabs
  rcases lt_or_le q 0 with h | h
  · rw [if_pos h, abs_of_neg h]
  · rw [if_neg (not_lt.mpr h), abs_of_nonneg h]

/-- `r_at(price, entry, stop_initial, dire)`: R-multiple of a price
against the initial risk distance, `0` when that distance is zero. -/
def r_at (price entry stop_initial : ℚ) (dire : String) : ℚ :=
  let risk := rabs (entry - stop_initial)
  if risk = 0 then 0
  else if dire = "BUY" then (price - entry) / risk
  else (entry - price) / risk

/-- `compute_mfe_mae(dire, entry, hi, lo)`. -/
def compute_mfe_mae (dire : String) (entry hi lo : ℚ) : ℚ × ℚ :=
  if dire = "BUY" then ((hi - entry) / entry * 100, (lo - entry) / entry * 100)
  else ((entry - lo) / entry * 100, (entry - hi) / entry * 100)

/-- The per-signal constants the loop reads: direction string and the
price levels (`entry`, `stop_loss` from the row, tp1–tp3,
`stop_loss_initial`). -/
structure Params where
  dire : String
  entry : ℚ
  sl_db : ℚ
  tp1 : ℚ
  tp2 : ℚ
  tp3 : ℚ
  stop_initial : ℚ
deriving DecidableEq, Repr

/-- The loop-carried mutable state of `apply_state_machine`; `finished`
models the `break` statements (the loop body is a no-op afterwards). -/
structure EvalState where
  entered_at : Option Nat
  status : Status
  partial_realized : ℚ
  partial_profit : ℚ
  exit_at : Option Nat
  exit_level : Option String
  mfe : Option ℚ
  mae : Option ℚ
  finished : Bool
deriving DecidableEq, Repr

/-- Lines 183–189: the effective stop for the candle, by current status. -/
def sl_working (p : Params) (st : Status) : ℚ :=
  match st with
  | Status.tp1 => p.entry
  | Status.tp2 => p.tp1
  | _ => p.sl_db

/-- Stop touch test (`hit_sl`), direction dependent. -/
def hit_sl (p : Params) (st : Status) (c : Candle) : Bool :=
  if p.dire = "BUY" then c.low ≤ sl_working p st else c.high ≥ sl_working p st

/-- Target touch test (`hit_tpN`), direction dependent. -/
def hit_tp (p : Params) (lvl : ℚ) (c : Candle) : Bool :=
  if p.dire = "BUY" then c.high ≥ lvl else c.low ≤ lvl

/-- The stop branch of the loop body (lines 200–228 / 268–296): the
breakeven, trailing or hard-stop exit, all of which `break`. -/
def stopBranch (p : Params) (st : EvalState) (c : Candle)
    (eat : Option Nat) (evs0 : List Event) : EvalState × List Event :=
  let slw := sl_working p st.status
  let frac_rem := pymax 0 (1 - st.partial_realized)
  match st.status with
  | Status.tp1 =>
    ({ st with entered_at := eat, exit_level := some "be", exit_at := some c.ts,
               status := Status.close, finished := true },
     evs0 ++ [{ event := "closed", price := some p.entry, candle_ts := some c.ts,
                fraction := none, missing := [] }])
  | Status.tp2 =>
    let r_extra := r_at slw p.entry p.stop_initial p.dire * frac_rem
    ({ st with entered_at := eat, exit_level := some "sl_trailing", exit_at := some c.ts,
               partial_profit := st.partial_profit + r_extra, partial_realized := 1,
               status := Status.close, finished := true },
     evs0 ++ [{ event := "closed", price := some slw, candle_ts := some c.ts,
                fraction := some frac_rem, missing := [] }])
  | _ =>
    ({ st with entered_at := eat, exit_level := some "sl", exit_at := some c.ts,
               status := Status.close, finished := true },
     evs0 ++ [{ event := "hit_sl", price := some slw, candle_ts := some c.ts,
                fraction := none, missing := [] }])

/-- The TP1/TP2 cascade of the loop body (lines 231–243 / 298–310):
status, partial_realized, partial_profit and logged events after the two
conditional tranche advances of one candle. -/
def tpChain (p : Params) (st : EvalState) (c : Candle) :
    Status × ℚ × ℚ × List Event :=
  let s1 : Status × ℚ × ℚ × List Event :=
    if st.status = Status.open_ ∧ hit_tp p p.tp1 c then
      let pr := r_at p.tp1 p.entry p.stop_initial p.dire * TP1_FRAC
      (Status.tp1, st.partial_realized + TP1_FRAC, st.partial_profit + pr,
       [{ event := "hit_tp1", price := some p.tp1, candle_ts := some c.ts,
          fraction := some TP1_FRAC, missing := [] }])
    else (st.status, st.partial_realized, st.partial_profit, [])
  if (s1.1 = Status.tp1 ∨ s1.1 = Status.open_) ∧ hit_tp p p.tp2 c then
    let pr := r_at p.tp2 p.entry p.stop_initial p.dire * TP2_FRAC
    (Status.tp2, s1.2.1 + TP2_FRAC, s1.2.2.1 + pr,
     s1.2.2.2 ++ [{ event := "hit_tp2", price := some p.tp2, candle_ts := some c.ts,
                    fraction := some TP2_FRAC, missing := [] }])
  else s1

/-- The target cascade and extrema update of the loop body (lines
231–256 / 298–327): TP1 then TP2 then the terminal TP3, else mfe/mae. -/
def targetBranch (p : Params) (st : EvalState) (c : Candle)
    (eat : Option Nat) (evs0 : List Event) : EvalState × List Event :=
  let s2 : Status × ℚ × ℚ × List Event := tpChain p st c
  if (s2.1 = Status.tp2 ∨ s2.1 = Status.tp1 ∨ s2.1 = Status.open_) ∧ hit_tp p p.tp3 c then
    let frac_rem := pymax 0 (1 - s2.2.1)
    let pr := r_at p.tp3 p.entry p.stop_initial p.dire * frac_rem
    ({ st with entered_at := eat, status := Status.tp3, exit_level := some "tp3",
               exit_at := some c.ts, partial_realized := 1,
               partial_profit := s2.2.2.1 + pr, finished := true },
     evs0 ++ s2.2.2.2 ++
       [{ event := "hit_tp3", price := some p.tp3, candle_ts := some c.ts,
          fraction := some frac_rem, missing := [] }])
  else
    let ma := compute_mfe_mae p.dire p.entry c.high c.low
    let mfeNew := match st.mfe with
      | none => some ma.1
      | some b => if ma.1 > b then some ma.1 else some b
    let maeNew := match st.mae with
      | none => some ma.2
      | some b => if ma.2 < b then some ma.2 else some b
    ({ st with entered_at := eat, status := s2.1, partial_realized := s2.2.1,
               partial_profit := s2.2.2.1, mfe := mfeNew, mae := maeNew },
     evs0 ++ s2.2.2.2)

/-- The loop body after the entry check: stop priority first, targets
otherwise. -/
def stepCore (p : Params) (st : EvalState) (c : Candle)
    (eat : Option Nat) (evs0 : List Event) : EvalState × List Event :=
  if hit_sl p st.status c then stopBranch p st c eat evs0
  else targetBranch p st c eat evs0

/-- One iteration of the candle loop (lines 170–327): skip once broken,
entry detection, then the body.  The BUY and SELL arms of the source
differ only in the touch comparisons and the `r_at` direction, captured
by `hit_sl` / `hit_tp` / `r_at` on `p.dire`. -/
def stepCandle (p : Params) (st : EvalState) (c : Candle) : EvalState × List Event :=
  if st.finished then (st, [])
  else
    match st.entered_at with
    | some t => stepCore p st c (some t) []
    | none =>
      if c.low ≤ p.entry ∧ p.entry ≤ c.high then
        stepCore p st c (some c.ts)
          [{ event := "entered", price := some p.entry, candle_ts := some c.ts,
             fraction := none, missing := [] }]
      else (st, [])

/-- The candle loop: fold `stepCandle` over the window, accumulating
events in order. -/
def replay (p : Params) : EvalState → List Candle → EvalState × List Event
  | st, [] => (st, [])
  | st, c :: cs =>
    let r1 := stepCandle p st c
    let r2 := replay p r1.1 cs
    (r2.1, r1.2 ++ r2.2)

/-- The patch `update` built in lines 332–374; keys the source adds only
conditionally are `Option`s (`none` ≙ key absent). -/
structure Update where
  policy_version : String
  mfe : Option ℚ
  mae : Option ℚ
  status : Status
  partial_realized : ℚ
  partial_profit : ℚ
  entered_at : Option Nat
  stop_loss : Option ℚ
  exit_at : Option Nat
  exit_level : Option String
  r_multiple : Option ℚ
  finalized : Bool
  profit_pct : Option ℚ
deriving DecidableEq, Repr

/-- Finalization (lines 329–374): r_multiple / profit_pct when an exit
happened, the ratcheted stop, and the exit columns. -/
def mkUpdate (p : Params) (fin : EvalState) : Update :=
  let r_mult : Option ℚ :=
    if fin.exit_at.isSome then some fin.partial_profit else none
  let profit_pct : Option ℚ :=
    if fin.exit_at.isSome then
      some (fin.partial_profit * (rabs (p.stop_initial - p.entry) / p.entry * 100))
    else none
  let base_stop : Option ℚ :=
    match fin.status with
    | Status.tp1 => some p.entry
    | Status.tp2 => some p.tp1
    | _ => none
  let new_stop : Option ℚ :=
    if fin.exit_at.isSome then
      match fin.exit_level with
      | some l =>
        if l = "be" then some p.entry
        else if l = "sl_trailing" then some p.tp1
        else base_stop
      | none => base_stop
    else base_stop
  { policy_version := POLICY_VERSION
    mfe := fin.mfe
    mae := fin.mae
    status := fin.status
    partial_realized := fin.partial_realized
    partial_profit := fin.partial_profit
    entered_at := fin.entered_at
    stop_loss :=
      match new_stop with
      | some ns => if ns ≠ p.sl_db then some ns else none
      | none => none
    exit_at := fin.exit_at
    exit_level := if fin.exit_at.isSome then fin.exit_level else none
    r_multiple := r_mult
    finalized := fin.exit_at.isSome
    profit_pct := profit_pct }

/-- The per-signal constants read in lines 138–150 (on the validated path
every `getD` default is dead). -/
def mkParams (sig : RawSignal) : Params :=
  let sl_db := (sig.stop_loss).getD 0
  { dire := (sig.direction).getD ""
    entry := (sig.entry).getD 0
    sl_db := sl_db
    tp1 := (sig.tp1).getD 0
    tp2 := (sig.tp2).getD 0
    tp3 := (sig.tp3).getD 0
    stop_initial := orQ sig.stop_loss_initial sl_db }

/-- The loop state seeded from the row (lines 150–159, 168). -/
def initState (sig : RawSignal) : EvalState :=
  { entered_at := sig.entered_at
    status := sig.status
    partial_realized := orQ sig.partial_realized 0
    partial_profit := orQ sig.partial_profit 0
    exit_at := none
    exit_level := none
    mfe := sig.mfe
    mae := sig.mae
    finished := false }

/-- `apply_state_machine(sig)` with the fetched candle window made an
explicit argument: validation, the empty-window no-op, the replay, and
the final patch.  First component `none` ≙ no database update issued. -/
def apply_state_machine (sig : RawSignal) (candles : List Candle) :
    Option Update × List Event :=
  let ms := requiredMissing sig
  if ms ≠ [] then (none, [errorEvent ms])
  else if candles = [] then (none, [])
  else
    let p := mkParams sig
    let r := replay p (initState sig) candles
    (some (mkUpdate p r.1), r.2)

/-- The `fetch_open_signals` filter: status in {open, tp1, tp2}, plus
status open with `entered_at` null (the union the driver evaluates). -/
def fetch_open_filter (status : Status) (entered_at : Option Nat) : Bool :=
  (status == Status.open_ || status == Status.tp1 || status == Status.tp2)
  || (status == Status.open_ && entered_at == none)

/-- The terminal statuses of the lifecycle: tp3, sl and close. -/
def terminalStatus (st : Status) : Prop :=
  st = Status.tp3 ∨ st = Status.sl ∨ st = Status.close

/-- The largest `partial_realized` compatible with a status if the
remaining TP tranches are to keep the total within 1: `0.34` before any
tranche, `0.67` after TP1, `1` afterwards. -/
def realizedCap : Status → ℚ
  | Status.open_ => 34/100
  | Status.tp1 => 67/100
  | _ => 1

/-- Sum of the `fraction` details carried by a list of events (events
without a fraction contribute 0). -/
def eventFracSum (evs : List Event) : ℚ :=
  (evs.map (fun e => e.fraction.getD 0)).sum

/-- The position fraction the terminal exit closes without logging a
`fraction` detail: the breakeven and hard-stop exits close the remaining
`1 − partial_realized` (at entry resp. at the stop); the tp3 and
trailing exits log their fraction and set `partial_realized = 1`. -/
def exitRemainder (fin : EvalState) : ℚ :=
  match fin.exit_level with
  | some l => if l = "be" ∨ l = "sl" then 1 - fin.partial_realized else 0
  | none => 0

/-- Total realized fraction of a replay: the logged TP tranches plus the
unlogged remainder of a breakeven/hard-stop exit. -/
def realizedSum (evs : List Event) (fin : EvalState) : ℚ :=
  eventFracSum evs + exitRemainder fin

/-! ## Concrete signals and candles used in the theorems -/

/-- A well-formed BUY signal, levels 95 < 100 < 105 < 110 < 120 (the
spec's Scenario A/B signal), not yet entered. -/
def sigAB : RawSignal :=
  { exchange := some "binance", symbol := some "BTCUSDT", timeframe := some "15m",
    direction := some "BUY", entry := some 100, stop_loss := some 95,
    tp1 := some 105, tp2 := some 110, tp3 := some 120,
    status := Status.open_, stop_loss_initial := some 95, entered_at := none,
    partial_realized := none, partial_profit := none, mfe := none, mae := none }

/-- Scenario A candle: range [99, 106] (enters and touches tp1). -/
def candA : Candle := { ts := 1, high := 106, low := 99 }

/-- Scenario B candle: low 94 (touches the ratcheted breakeven stop). -/
def candB : Candle := { ts := 2, high := 99, low := 94 }

/-- A stop-touching candle for the entered signal: range [94, 96]. -/
def candSL : Candle := { ts := 2, high := 96, low := 94 }

/-- `sigAB` already entered, still `open`. -/
def sigEntered : RawSignal := { sigAB with entered_at := some 0 }

/-- `sigAB` already finalized at tp3 (a terminal row). -/
def sigTerminal : RawSignal :=
  { sigAB with
      status := Status.tp3
      entered_at := some 0
      partial_realized := some 1
      partial_profit := some 1 }

/-- Entered `open` signal with `partial_realized = 0.9` (inside [0,1]). -/
def sigPartial : RawSignal :=
  { sigAB with
      entered_at := some 0
      partial_realized := some (9/10) }

/-- Candle [99, 106]: touches tp1 = 105 only. -/
def candTp1 : Candle := { ts := 2, high := 106, low := 99 }

/-- Entered BUY signal with stop 99 close to entry 100 and wide targets
110 < 120 < 130. -/
def sigWide : RawSignal :=
  { sigAB with
      entered_at := some 0
      stop_loss := some 99
      stop_loss_initial := some 99
      tp1 := some 110
      tp2 := some 120
      tp3 := some 130 }

/-- Candle [100, 120]: touches tp1 = 110 and tp2 = 120, not the 99 stop. -/
def candTp2 : Candle := { ts := 2, high := 120, low := 100 }

/-- `sigAB` without a `stop_loss` (the spec's Scenario D input). -/
def sigNoStop : RawSignal := { sigAB with stop_loss := none }

/-- `sigAB` with `entry` present but equal to 0. -/
def sigZeroEntry : RawSignal := { sigAB with entry := some 0 }

/-! ## Helper lemmas -/

/-- Disequalities between the string literals of the embedding, packaged
for `simp`. -/
theorem stringFacts :
    ¬("binance" = "") ∧ ¬("BTCUSDT" = "") ∧ ¬("15m" = "") ∧
    ¬("BUY" = "") ∧ ¬("SELL" = "") ∧ ¬("SELL" = "BUY") ∧
    ¬("sl" = "be") ∧ ¬("sl" = "sl_trailing") ∧
    ¬("tp3" = "be") ∧ ¬("tp3" = "sl_trailing") ∧
    ¬("be" = "sl_trailing") ∧ ¬("sl_trailing" = "be") := by
  decide

/-- The non-target event types are distinct from the three `hit_tpN`
milestone types. -/
theorem tpStringFacts :
    ¬("closed" = "hit_tp1") ∧ ¬("closed" = "hit_tp2") ∧ ¬("closed" = "hit_tp3") ∧
    ¬("hit_sl" = "hit_tp1") ∧ ¬("hit_sl" = "hit_tp2") ∧ ¬("hit_sl" = "hit_tp3") ∧
    ¬("entered" = "hit_tp1") ∧ ¬("entered" = "hit_tp2") ∧ ¬("entered" = "hit_tp3") ∧
    ¬("error" = "hit_tp1") ∧ ¬("error" = "hit_tp2") ∧ ¬("error" = "hit_tp3") := by
  decide

/-- Pairwise disequalities among the exit-level strings and remaining
event-type strings. -/
theorem exitStringFacts :
    ¬("be" = "sl") ∧ ¬("be" = "tp3") ∧ ¬("sl" = "tp3") ∧
    ¬("sl" = "be") ∧ ¬("tp3" = "sl") ∧ ¬("sl_trailing" = "sl") ∧
    ¬("sl_trailing" = "tp3") ∧ ¬("tp3" = "be") ∧ ¬("tp3" = "sl_trailing") ∧
    ¬("be" = "sl_trailing") ∧ ¬("sl_trailing" = "be") ∧ ¬("sl" = "sl_trailing") ∧
    ¬("hit_tp3" = "hit_tp1") ∧ ¬("hit_tp3" = "hit_tp2") ∧
    ¬("hit_tp1" = "hit_tp2") ∧ ¬("hit_tp2" = "hit_tp1") := by
  decide

/-- The validation path: any missing required field short-circuits the
evaluator into a single `error` event and no patch. -/
theorem apply_state_machine_missing (sig : RawSignal) (cs : List Candle)
    (h : requiredMissing sig ≠ []) :
    apply_state_machine sig cs = (none, [errorEvent (requiredMissing sig)]) := by
  simp [apply_state_machine, h]

/-! ## Theorems -/

/-- C1 (counterexample): for the entered `open` BUY signal `sigEntered`
(entry 100, stop 95) and the stop-touching candle [94, 96], the evaluator
does perform the hard-stop exit with exit_level `"sl"`, but it sets the
status to `close`, not `sl`, and it sets `r_multiple` to the accumulated
`partial_profit` `0`, not to `r_at(stop_loss) = -1`. -/
theorem C1_counterexample :
    apply_state_machine sigEntered [candSL] =
      (some { policy_version := POLICY_VERSION, mfe := none, mae := none,
              status := Status.close, partial_realized := 0, partial_profit := 0,
              entered_at := some 0, stop_loss := none, exit_at := some 2,
              exit_level := some "sl", r_multiple := some 0, finalized := true,
              profit_pct := some 0 },
       [{ event := "hit_sl", price := some 95, candle_ts := some 2,
          fraction := none, missing := [] }]) ∧
    Status.close ≠ Status.sl ∧
    r_at 95 100 95 "BUY" = -1 ∧ (0 : ℚ) ≠ -1 := by
  refine ⟨?_, by simp, by norm_num [r_at, rabs], by norm_num⟩
  norm_num [apply_state_machine, requiredMissing, falsyStr, falsyQ, stringFacts,
    sigEntered, sigAB, candSL, mkParams, initState, orQ, replay, stepCandle, stepCore, stopBranch, targetBranch, tpChain,
    sl_working, hit_sl, hit_tp, r_at, rabs, pymax, mkUpdate, compute_mfe_mae,
    TP1_FRAC, TP2_FRAC]

/-- C3 (Scenario A then B): the BUY signal (entry 100, stop 95, tp1 105,
tp2 110, tp3 120) enters on candle [99, 106] and touches tp1 on the same
bar — status `tp1`, partial_realized 0.33, partial_profit 0.33; on the
following candle with low 94 the working stop is the ratcheted 100 (not
95), so the remainder closes at entry with 0 extra R: exit_level `"be"`,
final r_multiple 0.33. -/
theorem C3_scenario_AB :
    apply_state_machine sigAB [candA] =
      (some { policy_version := POLICY_VERSION, mfe := some 6, mae := some (-1),
              status := Status.tp1, partial_realized := 33/100, partial_profit := 33/100,
              entered_at := some 1, stop_loss := some 100, exit_at := none,
              exit_level := none, r_multiple := none, finalized := false,
              profit_pct := none },
       [{ event := "entered", price := some 100, candle_ts := some 1,
          fraction := none, missing := [] },
        { event := "hit_tp1", price := some 105, candle_ts := some 1,
          fraction := some (33/100), missing := [] }]) ∧
    sl_working (mkParams sigAB) Status.tp1 = 100 ∧
    apply_state_machine sigAB [candA, candB] =
      (some { policy_version := POLICY_VERSION, mfe := some 6, mae := some (-1),
              status := Status.close, partial_realized := 33/100, partial_profit := 33/100,
              entered_at := some 1, stop_loss := some 100, exit_at := some 2,
              exit_level := some "be", r_multiple := some (33/100), finalized := true,
              profit_pct := some (33/20) },
       [{ event := "entered", price := some 100, candle_ts := some 1,
          fraction := none, missing := [] },
        { event := "hit_tp1", price := some 105, candle_ts := some 1,
          fraction := some (33/100), missing := [] },
        { event := "closed", price := some 100, candle_ts := some 2,
          fraction := none, missing := [] }]) := by
  refine ⟨?_, by norm_num [sl_working, mkParams, sigAB], ?_⟩ <;>
  · norm_num [apply_state_machine, requiredMissing, falsyStr, falsyQ, stringFacts,
      sigAB, candA, candB, mkParams, initState, orQ, replay, stepCandle, stepCore, stopBranch, targetBranch, tpChain,
      sl_working, hit_sl, hit_tp, r_at, rabs, pymax, mkUpdate, compute_mfe_mae,
      TP1_FRAC, TP2_FRAC]
    try simp

/-- C4 (counterexample): the evaluator has no defensive terminal guard.
For the already-terminal (status `tp3`) signal `sigTerminal` and the
stop-touching candle [94, 96], it produces a non-empty patch that
transitions the status `tp3 → close` and emits a `hit_sl` milestone
event — not the no-op the claim requires. -/
theorem C4_counterexample :
    sigTerminal.status = Status.tp3 ∧
    apply_state_machine sigTerminal [candSL] =
      (some { policy_version := POLICY_VERSION, mfe := none, mae := none,
              status := Status.close, partial_realized := 1, partial_profit := 1,
              entered_at := some 0, stop_loss := none, exit_at := some 2,
              exit_level := some "sl", r_multiple := some 1, finalized := true,
              profit_pct := some 5 },
       [{ event := "hit_sl", price := some 95, candle_ts := some 2,
          fraction := none, missing := [] }]) ∧
    (apply_state_machine sigTerminal [candSL]).1 ≠ none ∧
    (apply_state_machine sigTerminal [candSL]).2 ≠ [] ∧
    Status.close ≠ Status.tp3 := by
  refine ⟨by norm_num [sigTerminal, sigAB], ?_, ?_, ?_, by simp⟩ <;>
  · norm_num [apply_state_machine, requiredMissing, falsyStr, falsyQ, stringFacts,
      sigTerminal, sigAB, candSL, mkParams, initState, orQ, replay, stepCandle, stepCore, stopBranch, targetBranch, tpChain,
      sl_working, hit_sl, hit_tp, r_at, rabs, pymax, mkUpdate, compute_mfe_mae,
      TP1_FRAC, TP2_FRAC]
    try simp

/-- C6 (counterexample): an `open` signal whose stored
`partial_realized = 0.9` lies inside [0,1]; a candle touching tp1 only
makes the evaluator add 0.33, yielding `partial_realized = 1.23 > 1`
while the status `tp1` is not terminal — the claimed [0,1] bound fails. -/
theorem C6_counterexample :
    sigPartial.partial_realized = some (9/10) ∧
    (0 : ℚ) ≤ 9/10 ∧ (9/10 : ℚ) ≤ 1 ∧
    sigPartial.status = Status.open_ ∧
    (apply_state_machine sigPartial [candTp1]).1.map Update.partial_realized
      = some (123/100) ∧
    (apply_state_machine sigPartial [candTp1]).1.map Update.status
      = some Status.tp1 ∧
    ¬((123 : ℚ)/100 ≤ 1) := by
  refine ⟨by norm_num [sigPartial, sigAB], by norm_num, by norm_num,
    by norm_num [sigPartial, sigAB], ?_, ?_, by norm_num⟩ <;>
  norm_num [apply_state_machine, requiredMissing, falsyStr, falsyQ, stringFacts,
    sigPartial, sigAB, candTp1, mkParams, initState, orQ, replay, stepCandle, stepCore, stopBranch, targetBranch, tpChain,
    sl_working, hit_sl, hit_tp, r_at, rabs, pymax, mkUpdate, compute_mfe_mae,
    TP1_FRAC, TP2_FRAC]

/-- C7 (counterexample): for the well-ordered BUY signal with stop 99 <
entry 100 < tp1 110 < tp2 120, a candle touching tp2 makes the evaluator
persist `stop_loss = tp1 = 110`, which is *farther* from entry (distance
10) than the previous stop 99 (distance 1) — the stop moves past entry,
not closer to it. -/
theorem C7_counterexample :
    ((99 : ℚ) < 100 ∧ (100 : ℚ) < 110 ∧ (110 : ℚ) < 120) ∧
    (apply_state_machine sigWide [candTp2]).1.map Update.stop_loss
      = some (some 110) ∧
    (apply_state_machine sigWide [candTp2]).1.map Update.status
      = some Status.tp2 ∧
    rabs (99 - 100) < rabs (110 - 100) := by
  refine ⟨by norm_num, ?_, ?_, by norm_num [rabs]⟩ <;>
  norm_num [apply_state_machine, requiredMissing, falsyStr, falsyQ, stringFacts,
    sigWide, sigAB, candTp2, mkParams, initState, orQ, replay, stepCandle, stepCore, stopBranch, targetBranch, tpChain,
    sl_working, hit_sl, hit_tp, r_at, rabs, pymax, mkUpdate, compute_mfe_mae,
    TP1_FRAC, TP2_FRAC]

/-- C5: a signal with any required field missing produces no patch and
exactly one `error` event naming the missing fields; nothing else runs,
so the signal is untouched. -/
theorem C5_missing_fields (sig : RawSignal) (cs : List Candle)
    (h : requiredMissing sig ≠ []) :
    (apply_state_machine sig cs).1 = none ∧
    (apply_state_machine sig cs).2 = [errorEvent (requiredMissing sig)] := by
  rw [apply_state_machine_missing sig cs h]
  exact ⟨rfl, rfl⟩

/-- C5 witness: Scenario D — `sigNoStop` misses `stop_loss`, the
evaluator returns no patch and the single error event naming it. -/
theorem C5_missing_fields_witness :
    requiredMissing sigNoStop = ["stop_loss"] ∧
    (apply_state_machine sigNoStop [candA]).1 = none ∧
    (apply_state_machine sigNoStop [candA]).2
      = [errorEvent (requiredMissing sigNoStop)] := by
  refine ⟨by norm_num [requiredMissing, falsyStr, falsyQ, sigNoStop, sigAB, stringFacts],
    ?_, ?_⟩
  · exact (C5_missing_fields sigNoStop [candA]
      (by norm_num [requiredMissing, falsyStr, falsyQ, sigNoStop, sigAB, stringFacts])).1
  · exact (C5_missing_fields sigNoStop [candA]
      (by norm_num [requiredMissing, falsyStr, falsyQ, sigNoStop, sigAB, stringFacts])).2

/-- C10: a required numeric field that is present but equal to 0 is
treated as missing (Python falsy test `not sig.get(k)`): the evaluator
takes the validation-error path, emitting one `error` event that lists
the field and producing no patch. -/
theorem C10_zero_field (sig : RawSignal) (cs : List Candle)
    (h : sig.entry = some 0 ∨ sig.stop_loss = some 0 ∨ sig.tp1 = some 0 ∨
         sig.tp2 = some 0 ∨ sig.tp3 = some 0) :
    requiredMissing sig ≠ [] ∧
    (apply_state_machine sig cs).1 = none ∧
    (apply_state_machine sig cs).2 = [errorEvent (requiredMissing sig)] ∧
    (sig.entry = some 0 → "entry" ∈ requiredMissing sig) ∧
    (sig.stop_loss = some 0 → "stop_loss" ∈ requiredMissing sig) ∧
    (sig.tp1 = some 0 → "tp1" ∈ requiredMissing sig) ∧
    (sig.tp2 = some 0 → "tp2" ∈ requiredMissing sig) ∧
    (sig.tp3 = some 0 → "tp3" ∈ requiredMissing sig) := by
  have hne : requiredMissing sig ≠ [] := by
    rcases h with h | h | h | h | h <;>
    · intro hnil
      simp [requiredMissing, falsyQ, h] at hnil
  have happ := apply_state_machine_missing sig cs hne
  refine ⟨hne, by rw [happ], by rw [happ], ?_, ?_, ?_, ?_, ?_⟩ <;>
  · intro hf
    simp [requiredMissing, falsyQ, hf]

/-- C10 witness: `sigZeroEntry` has `entry = 0`; the evaluator treats it
as missing. -/
theorem C10_zero_field_witness :
    sigZeroEntry.entry = some 0 ∧
    requiredMissing sigZeroEntry ≠ [] ∧
    (apply_state_machine sigZeroEntry [candA]).1 = none ∧
    "entry" ∈ requiredMissing sigZeroEntry := by
  have h := C10_zero_field sigZeroEntry [candA] (Or.inl rfl)
  exact ⟨rfl, h.1, h.2.1, h.2.2.2.1 rfl⟩

/-- C9: the evaluator is a pure function of the signal row and the candle
window: two evaluations from equal starting states on equal windows give
identical patches and identical ordered event lists. -/
theorem C9_deterministic (s1 s2 : RawSignal) (cs1 cs2 : List Candle)
    (hs : s1 = s2) (hc : cs1 = cs2) :
    (apply_state_machine s1 cs1).1 = (apply_state_machine s2 cs2).1 ∧
    (apply_state_machine s1 cs1).2 = (apply_state_machine s2 cs2).2 := by
  subst hs
  subst hc
  exact ⟨rfl, rfl⟩

/-- C9 witness: instantiated at the Scenario A signal and window. -/
theorem C9_deterministic_witness :
    (apply_state_machine sigAB [candA]).1 = (apply_state_machine sigAB [candA]).1 ∧
    (apply_state_machine sigAB [candA]).2 = (apply_state_machine sigAB [candA]).2 :=
  C9_deterministic sigAB sigAB [candA] [candA] rfl rfl

/-- C2: within one candle of an entered, non-terminal signal, if the stop
condition for the current status holds then the outcome is the
stop/breakeven/trailing exit (status `close`, replay stops) and no TP
transition event is emitted on that candle, whatever the direction. -/
theorem C2_stop_priority (p : Params) (st : EvalState) (c : Candle) (t : Nat)
    (hfin : st.finished = false) (hent : st.entered_at = some t)
    (hnt : st.status = Status.open_ ∨ st.status = Status.tp1 ∨ st.status = Status.tp2)
    (hsl : hit_sl p st.status c = true) :
    (stepCandle p st c).1.status = Status.close ∧
    (stepCandle p st c).1.finished = true ∧
    ((stepCandle p st c).1.exit_level = some "be" ∨
     (stepCandle p st c).1.exit_level = some "sl_trailing" ∨
     (stepCandle p st c).1.exit_level = some "sl") ∧
    ∀ e ∈ (stepCandle p st c).2,
      e.event ≠ "hit_tp1" ∧ e.event ≠ "hit_tp2" ∧ e.event ≠ "hit_tp3" := by
  rcases hnt with h | h | h <;>
  · rw [h] at hsl
    simp [stepCandle, stepCore, stopBranch, hfin, hent, hsl, h, tpStringFacts]

/-- C2 witness: the entered open signal and the stop-touching candle. -/
theorem C2_stop_priority_witness :
    (initState sigEntered).finished = false ∧
    (initState sigEntered).entered_at = some 0 ∧
    (initState sigEntered).status = Status.open_ ∧
    hit_sl (mkParams sigEntered) (initState sigEntered).status candSL = true ∧
    ((stepCandle (mkParams sigEntered) (initState sigEntered) candSL).1.status
       = Status.close ∧
     (stepCandle (mkParams sigEntered) (initState sigEntered) candSL).1.finished
       = true ∧
     ((stepCandle (mkParams sigEntered) (initState sigEntered) candSL).1.exit_level
        = some "be" ∨
      (stepCandle (mkParams sigEntered) (initState sigEntered) candSL).1.exit_level
        = some "sl_trailing" ∨
      (stepCandle (mkParams sigEntered) (initState sigEntered) candSL).1.exit_level
        = some "sl") ∧
     ∀ e ∈ (stepCandle (mkParams sigEntered) (initState sigEntered) candSL).2,
       e.event ≠ "hit_tp1" ∧ e.event ≠ "hit_tp2" ∧ e.event ≠ "hit_tp3") := by
  refine ⟨rfl, rfl, rfl, ?_, ?_⟩
  · norm_num [hit_sl, sl_working, mkParams, initState, sigEntered, sigAB, candSL,
      stringFacts]
  · exact C2_stop_priority (mkParams sigEntered) (initState sigEntered) candSL 0
      rfl rfl (Or.inl rfl)
      (by norm_num [hit_sl, sl_working, mkParams, initState, sigEntered, sigAB,
        candSL, stringFacts])

/-- C1 (amended): for a valid, entered signal still `open`, a candle that
triggers the stop condition produces the hard-stop exit with exit_level
`"sl"` and a `hit_sl` event at the working stop, but the persisted status
is `close` (not `sl`) and the final `r_multiple` is the previously
accumulated `partial_profit` (so `0`, not `-1`, when no partial profit
was taken — the stop leg itself contributes no negative R). -/
theorem C1_hard_stop_amended (sig : RawSignal) (c : Candle) (t : Nat)
    (hmiss : requiredMissing sig = [])
    (hstatus : sig.status = Status.open_)
    (hent : sig.entered_at = some t)
    (hsl : hit_sl (mkParams sig) Status.open_ c = true) :
    (apply_state_machine sig [c]).1.map Update.status = some Status.close ∧
    (apply_state_machine sig [c]).1.map Update.exit_level = some (some "sl") ∧
    (apply_state_machine sig [c]).1.map Update.r_multiple
      = some (some (orQ sig.partial_profit 0)) ∧
    (apply_state_machine sig [c]).2 =
      [{ event := "hit_sl", price := some (sl_working (mkParams sig) Status.open_),
         candle_ts := some c.ts, fraction := none, missing := [] }] := by
  simp [apply_state_machine, hmiss, replay, stepCandle, stepCore, stopBranch,
    initState, hstatus, hent, hsl, mkUpdate, sl_working]

/-- C1 witness: the amended hard-stop behaviour at the concrete entered
signal and stop-touching candle. -/
theorem C1_hard_stop_amended_witness :
    requiredMissing sigEntered = [] ∧
    sigEntered.status = Status.open_ ∧
    sigEntered.entered_at = some 0 ∧
    hit_sl (mkParams sigEntered) Status.open_ candSL = true ∧
    ((apply_state_machine sigEntered [candSL]).1.map Update.status
       = some Status.close ∧
     (apply_state_machine sigEntered [candSL]).1.map Update.exit_level
       = some (some "sl") ∧
     (apply_state_machine sigEntered [candSL]).1.map Update.r_multiple
       = some (some (orQ sigEntered.partial_profit 0)) ∧
     (apply_state_machine sigEntered [candSL]).2 =
       [{ event := "hit_sl",
          price := some (sl_working (mkParams sigEntered) Status.open_),
          candle_ts := some candSL.ts, fraction := none, missing := [] }]) := by
  refine ⟨?_, rfl, rfl, ?_, ?_⟩
  · norm_num [requiredMissing, falsyStr, falsyQ, sigEntered, sigAB, stringFacts]
  · norm_num [hit_sl, sl_working, mkParams, sigEntered, sigAB, candSL, stringFacts]
  · exact C1_hard_stop_amended sigEntered candSL 0
      (by norm_num [requiredMissing, falsyStr, falsyQ, sigEntered, sigAB, stringFacts])
      rfl rfl
      (by norm_num [hit_sl, sl_working, mkParams, sigEntered, sigAB, candSL,
        stringFacts])

/-- One candle step keeps a terminal status terminal (the TP guards never
match a terminal status) and never emits a TP milestone event. -/
theorem stepCandle_terminal (p : Params) (st : EvalState) (c : Candle)
    (h : terminalStatus st.status) :
    terminalStatus (stepCandle p st c).1.status ∧
    ∀ e ∈ (stepCandle p st c).2,
      e.event ≠ "hit_tp1" ∧ e.event ≠ "hit_tp2" ∧ e.event ≠ "hit_tp3" := by
  rcases h with h | h | h <;>
  rcases hf : st.finished with _ | _ <;>
  rcases he : st.entered_at with _ | t <;>
  simp [stepCandle, stepCore, stopBranch, targetBranch, tpChain, hf, he, h,
    terminalStatus, tpStringFacts] <;>
  split_ifs <;>
  simp_all [tpChain, terminalStatus, tpStringFacts]

/-- The whole replay keeps a terminal status terminal and never emits a
TP milestone event. -/
theorem replay_terminal (p : Params) (st : EvalState) (cs : List Candle)
    (h : terminalStatus st.status) :
    terminalStatus (replay p st cs).1.status ∧
    ∀ e ∈ (replay p st cs).2,
      e.event ≠ "hit_tp1" ∧ e.event ≠ "hit_tp2" ∧ e.event ≠ "hit_tp3" := by
  induction cs generalizing st with
  | nil => exact ⟨h, by simp [replay]⟩
  | cons c cs ih =>
    obtain ⟨h1, h2⟩ := stepCandle_terminal p st c h
    obtain ⟨h3, h4⟩ := ih _ h1
    refine ⟨h3, ?_⟩
    intro e he
    simp only [replay, List.mem_append] at he
    rcases he with he | he
    · exact h2 e he
    · exact h4 e he

/-- C4 (amended): a terminal signal is excluded by the repository-side
active filter (`fetch_open_signals` selects only open/tp1/tp2), but the
evaluator itself has no defensive terminal no-op: fed a terminal signal
it may still produce a patch and transitions (e.g. tp3 → close on a stop
touch, see the counterexample), although the status can never leave the
terminal set and no TP milestone event is ever emitted. -/
theorem C4_terminal_amended (sig : RawSignal) (cs : List Candle)
    (h : terminalStatus sig.status) :
    fetch_open_filter sig.status sig.entered_at = false ∧
    (∀ u, (apply_state_machine sig cs).1 = some u → terminalStatus u.status) ∧
    ∀ e ∈ (apply_state_machine sig cs).2,
      e.event ≠ "hit_tp1" ∧ e.event ≠ "hit_tp2" ∧ e.event ≠ "hit_tp3" := by
  refine ⟨?_, ?_, ?_⟩
  · rcases h with h | h | h <;> simp [fetch_open_filter, h]
  · intro u hu
    by_cases hm : requiredMissing sig ≠ []
    · rw [apply_state_machine_missing sig cs hm] at hu
      exact absurd hu (by simp)
    · rcases Decidable.em (cs = []) with hcs | hcs
      · simp [apply_state_machine, hm, hcs] at hu
      · have hrep := (replay_terminal (mkParams sig) (initState sig) cs
          (by simpa [initState] using h)).1
        simp only [apply_state_machine, if_neg hm, if_neg hcs,
          Option.some.injEq] at hu
        rw [← hu]
        simpa [mkUpdate] using hrep
  · intro e he
    by_cases hm : requiredMissing sig ≠ []
    · rw [apply_state_machine_missing sig cs hm] at he
      simp only [List.mem_singleton] at he
      subst he
      simp [errorEvent, tpStringFacts]
    · rcases Decidable.em (cs = []) with hcs | hcs
      · simp [apply_state_machine, hm, hcs] at he
      · have hrep := (replay_terminal (mkParams sig) (initState sig) cs
          (by simpa [initState] using h)).2
        simp only [apply_state_machine, if_neg hm, if_neg hcs] at he
        exact hrep e he

/-- C4 witness: the amended statement at the terminal tp3 signal and the
stop-touching candle. -/
theorem C4_terminal_amended_witness :
    terminalStatus sigTerminal.status ∧
    fetch_open_filter sigTerminal.status sigTerminal.entered_at = false ∧
    (∀ u, (apply_state_machine sigTerminal [candSL]).1 = some u →
      terminalStatus u.status) ∧
    ∀ e ∈ (apply_state_machine sigTerminal [candSL]).2,
      e.event ≠ "hit_tp1" ∧ e.event ≠ "hit_tp2" ∧ e.event ≠ "hit_tp3" := by
  refine ⟨Or.inl rfl, ?_⟩
  exact C4_terminal_amended sigTerminal [candSL] (Or.inl rfl)

/-- `eventFracSum` distributes over append. -/
theorem eventFracSum_append (l1 l2 : List Event) :
    eventFracSum (l1 ++ l2) = eventFracSum l1 + eventFracSum l2 := by
  simp [eventFracSum]

/-- Events without a fraction detail contribute nothing to the sum. -/
theorem eventFracSum_of_none (l : List Event) (h : ∀ e ∈ l, e.fraction = none) :
    eventFracSum l = 0 := by
  induction l with
  | nil => simp [eventFracSum]
  | cons e l ih =>
    have he := h e (by simp)
    have hl := ih (fun x hx => h x (by simp [hx]))
    simp only [eventFracSum, List.map_cons, List.sum_cons] at hl ⊢
    simp [he, hl]

/-- The conjunction of properties the invariant lemmas carry through one
loop-body evaluation, stated of a result `r` relative to the incoming
state `st`. -/
def stepInv (st : EvalState) (r : EvalState × List Event) : Prop :=
  (0 ≤ r.1.partial_realized ∧ r.1.partial_realized ≤ realizedCap r.1.status) ∧
  st.partial_realized ≤ r.1.partial_realized ∧
  ((r.1.exit_level = some "tp3" ∨ r.1.exit_level = some "sl_trailing") →
    r.1.partial_realized = 1) ∧
  (r.1.finished = true →
    r.1.exit_level = some "be" ∨ r.1.exit_level = some "sl" ∨
    r.1.exit_level = some "tp3" ∨ r.1.exit_level = some "sl_trailing") ∧
  (∀ e ∈ r.2, (e.event = "hit_tp1" ∨ e.event = "hit_tp2") →
    e.fraction = some TP1_FRAC) ∧
  eventFracSum r.2 = r.1.partial_realized - st.partial_realized

/-- The stop branch preserves the bookkeeping invariant. -/
theorem stopBranch_master (p : Params) (st : EvalState) (c : Candle)
    (eat : Option Nat) (evs0 : List Event)
    (h0 : 0 ≤ st.partial_realized)
    (h1 : st.partial_realized ≤ realizedCap st.status)
    (hevs0 : ∀ e ∈ evs0, e.fraction = none ∧
      e.event ≠ "hit_tp1" ∧ e.event ≠ "hit_tp2") :
    stepInv st (stopBranch p st c eat evs0) := by
  have hz : eventFracSum evs0 = 0 :=
    eventFracSum_of_none evs0 (fun e he => (hevs0 e he).1)
  have hq : ∀ e ∈ evs0, (e.event = "hit_tp1" ∨ e.event = "hit_tp2") →
      e.fraction = some TP1_FRAC := by
    intro e he hev
    rcases hev with hev | hev
    · exact absurd hev (hevs0 e he).2.1
    · exact absurd hev (hevs0 e he).2.2
  rcases hst : st.status <;>
  rw [hst] at h1 <;>
  simp only [stepInv, stopBranch, hst, pymax] <;>
  refine ⟨⟨?_, ?_⟩, ?_, ?_, ?_, ?_, ?_⟩ <;>
  (try simp_all [realizedCap, eventFracSum_append, eventFracSum,
    exitStringFacts, tpStringFacts, stringFacts]) <;>
  (try split_ifs) <;>
  (try linarith) <;>
  (try (intro e he hev
        rcases he with he | he
        · rcases hev with hev | hev
          · exact absurd hev (hevs0 e he).2.1
          · exact absurd hev (hevs0 e he).2.2
        · subst he
          simp_all [tpStringFacts, exitStringFacts]))

theorem realizedCap_le_one (s : Status) : realizedCap s ≤ 1 := by
  cases s <;> norm_num [realizedCap]

/-- The TP1/TP2 cascade: partial_realized starts nonnegative, never
decreases, stays under the cap of the resulting status, every logged
event is a `hit_tp1`/`hit_tp2` with the fixed 0.33 fraction, and the
logged fractions sum to the increase of partial_realized. -/
theorem tpChain_master (p : Params) (st : EvalState) (c : Candle)
    (h0 : 0 ≤ st.partial_realized)
    (h1 : st.partial_realized ≤ realizedCap st.status) :
    (0 ≤ (tpChain p st c).2.1 ∧
      (tpChain p st c).2.1 ≤ realizedCap (tpChain p st c).1) ∧
    st.partial_realized ≤ (tpChain p st c).2.1 ∧
    (∀ e ∈ (tpChain p st c).2.2.2,
      e.fraction = some TP1_FRAC ∧
      (e.event = "hit_tp1" ∨ e.event = "hit_tp2")) ∧
    eventFracSum (tpChain p st c).2.2.2
      = (tpChain p st c).2.1 - st.partial_realized := by
  rcases hst : st.status <;>
  rw [hst] at h1 <;>
  simp only [tpChain, hst] <;>
  split_ifs <;>
  refine ⟨⟨?_, ?_⟩, ?_, ?_, ?_⟩ <;>
  (try simp_all [realizedCap, eventFracSum, TP1_FRAC, TP2_FRAC]) <;>
  (try linarith)

/-- The target branch preserves the bookkeeping invariant. -/
theorem targetBranch_master (p : Params) (st : EvalState) (c : Candle)
    (eat : Option Nat) (evs0 : List Event)
    (h0 : 0 ≤ st.partial_realized)
    (h1 : st.partial_realized ≤ realizedCap st.status)
    (h2 : (st.exit_level = some "tp3" ∨ st.exit_level = some "sl_trailing") →
      st.partial_realized = 1)
    (hf : st.finished = false)
    (hevs0 : ∀ e ∈ evs0, e.fraction = none ∧
      e.event ≠ "hit_tp1" ∧ e.event ≠ "hit_tp2") :
    stepInv st (targetBranch p st c eat evs0) := by
  obtain ⟨⟨hc0, hc1⟩, hcm, hcev, hcsum⟩ := tpChain_master p st c h0 h1
  have hz : eventFracSum evs0 = 0 :=
    eventFracSum_of_none evs0 (fun e he => (hevs0 e he).1)
  have hcap1 : realizedCap (tpChain p st c).1 ≤ 1 := realizedCap_le_one _
  have hle : (tpChain p st c).2.1 ≤ 1 := le_trans hc1 hcap1
  simp only [targetBranch, stepInv]
  split_ifs with hcond
  · have hfr : pymax 0 (1 - (tpChain p st c).2.1) = 1 - (tpChain p st c).2.1 := by
      unfold pymax
      rw [if_neg (not_lt.mpr (by linarith))]
    refine ⟨⟨by norm_num, by norm_num [realizedCap]⟩, by dsimp only; linarith,
      fun _ => by dsimp only, fun _ => Or.inr (Or.inr (Or.inl rfl)), ?_, ?_⟩
    · intro e he hev
      dsimp only at he
      rcases List.mem_append.mp he with he | he
      · rcases List.mem_append.mp he with he | he
        · rcases hev with hev | hev
          · exact absurd hev (hevs0 e he).2.1
          · exact absurd hev (hevs0 e he).2.2
        · exact (hcev e he).1
      · have heq := List.mem_singleton.mp he
        subst heq
        rcases hev with hev | hev <;> dsimp only at hev <;>
          exact absurd hev (by decide)
    · dsimp only
      rw [eventFracSum_append, eventFracSum_append, hz, hcsum]
      simp only [eventFracSum, List.map_cons, List.map_nil, List.sum_cons,
        List.sum_nil, Option.getD_some, hfr]
      ring
  · refine ⟨⟨hc0, by dsimp only; exact hc1⟩, by dsimp only; exact hcm, ?_, ?_, ?_, ?_⟩
    · intro hx
      dsimp only at hx ⊢
      have hp1 := h2 hx
      linarith
    · intro hxx
      dsimp only at hxx
      rw [hf] at hxx
      exact absurd hxx (by simp)
    · intro e he hev
      dsimp only at he
      rcases List.mem_append.mp he with he | he
      · rcases hev with hev | hev
        · exact absurd hev (hevs0 e he).2.1
        · exact absurd hev (hevs0 e he).2.2
      · exact (hcev e he).1
    · dsimp only
      rw [eventFracSum_append, hz, hcsum]
      ring

/-- The loop body preserves the bookkeeping invariant. -/
theorem stepCore_master (p : Params) (st : EvalState) (c : Candle)
    (eat : Option Nat) (evs0 : List Event)
    (h0 : 0 ≤ st.partial_realized)
    (h1 : st.partial_realized ≤ realizedCap st.status)
    (h2 : (st.exit_level = some "tp3" ∨ st.exit_level = some "sl_trailing") →
      st.partial_realized = 1)
    (hf : st.finished = false)
    (hevs0 : ∀ e ∈ evs0, e.fraction = none ∧
      e.event ≠ "hit_tp1" ∧ e.event ≠ "hit_tp2") :
    stepInv st (stepCore p st c eat evs0) := by
  unfold stepCore
  split_ifs
  · exact stopBranch_master p st c eat evs0 h0 h1 hevs0
  · exact targetBranch_master p st c eat evs0 h0 h1 h2 hf hevs0

/-- One candle step preserves the bookkeeping invariant. -/
theorem stepCandle_master (p : Params) (st : EvalState) (c : Candle)
    (h0 : 0 ≤ st.partial_realized)
    (h1 : st.partial_realized ≤ realizedCap st.status)
    (h2 : (st.exit_level = some "tp3" ∨ st.exit_level = some "sl_trailing") →
      st.partial_realized = 1)
    (h3 : st.finished = true →
      st.exit_level = some "be" ∨ st.exit_level = some "sl" ∨
      st.exit_level = some "tp3" ∨ st.exit_level = some "sl_trailing") :
    stepInv st (stepCandle p st c) := by
  unfold stepCandle
  rcases hfin : st.finished with _ | _
  · rcases he : st.entered_at with _ | t
    · simp only [Bool.false_eq_true, if_false]
      split_ifs with hent
      · exact stepCore_master p st c (some c.ts) _ h0 h1 h2 hfin
          (by
            intro e he
            simp only [List.mem_singleton] at he
            subst he
            exact ⟨rfl, by dsimp only; decide, by dsimp only; decide⟩)
      · exact ⟨⟨h0, h1⟩, le_refl _, h2, h3, by simp, by simp [eventFracSum]⟩
    · simp only [Bool.false_eq_true, if_false]
      exact stepCore_master p st c (some t) [] h0 h1 h2 hfin (by simp)
  · simp only [if_true]
    exact ⟨⟨h0, h1⟩, le_refl _, h2, h3, by simp, by simp [eventFracSum]⟩

/-- The replay preserves the bookkeeping invariant, cumulatively: the
final partial_realized is within bounds and at least the initial one,
tp3/trailing termination pins it to 1, every TP1/TP2 event carries the
0.33 fraction, and all logged fractions sum to the total increase. -/
theorem replay_master (p : Params) (st : EvalState) (cs : List Candle)
    (h0 : 0 ≤ st.partial_realized)
    (h1 : st.partial_realized ≤ realizedCap st.status)
    (h2 : (st.exit_level = some "tp3" ∨ st.exit_level = some "sl_trailing") →
      st.partial_realized = 1)
    (h3 : st.finished = true →
      st.exit_level = some "be" ∨ st.exit_level = some "sl" ∨
      st.exit_level = some "tp3" ∨ st.exit_level = some "sl_trailing") :
    stepInv st (replay p st cs) := by
  induction cs generalizing st with
  | nil =>
    exact ⟨⟨h0, h1⟩, le_refl _, h2, h3, by simp [replay], by simp [replay, eventFracSum]⟩
  | cons c cs ih =>
    obtain ⟨⟨s0, s1⟩, sm, s2, s3, sev, ssum⟩ := stepCandle_master p st c h0 h1 h2 h3
    obtain ⟨⟨r0, r1⟩, rm, r2, r3, rev, rsum⟩ := ih (stepCandle p st c).1 s0 s1 s2 s3
    refine ⟨⟨r0, by simpa [replay] using r1⟩, ?_, ?_, ?_, ?_, ?_⟩
    · simp only [replay]
      exact le_trans sm rm
    · simpa [replay] using r2
    · simpa [replay] using r3
    · intro e he hev
      simp only [replay, List.mem_append] at he
      rcases he with he | he
      · exact sev e he hev
      · exact rev e he hev
    · simp only [replay]
      rw [eventFracSum_append, ssum, rsum]
      ring

/-- C6 (amended): for a signal whose stored `partial_realized` is
consistent with its status (at most 0.34 while `open`, 0.67 after tp1, 1
otherwise, and nonnegative), `partial_realized` stays in [0,1] for the
whole replay and never decreases; every TP1/TP2 transition logs exactly
the fixed 0.33 tranche, and a tp3 or trailing exit pins it to exactly 1. -/
theorem C6_partial_realized_amended (sig : RawSignal) (cs : List Candle)
    (h0 : 0 ≤ orQ sig.partial_realized 0)
    (h1 : orQ sig.partial_realized 0 ≤ realizedCap sig.status) :
    (0 ≤ (replay (mkParams sig) (initState sig) cs).1.partial_realized ∧
     (replay (mkParams sig) (initState sig) cs).1.partial_realized ≤ 1) ∧
    orQ sig.partial_realized 0
      ≤ (replay (mkParams sig) (initState sig) cs).1.partial_realized ∧
    (∀ e ∈ (replay (mkParams sig) (initState sig) cs).2,
      (e.event = "hit_tp1" ∨ e.event = "hit_tp2") → e.fraction = some TP1_FRAC) ∧
    (((replay (mkParams sig) (initState sig) cs).1.exit_level = some "tp3" ∨
      (replay (mkParams sig) (initState sig) cs).1.exit_level = some "sl_trailing") →
      (replay (mkParams sig) (initState sig) cs).1.partial_realized = 1) := by
  obtain ⟨⟨r0, r1⟩, rm, r2, r3, rev, rsum⟩ :=
    replay_master (mkParams sig) (initState sig) cs h0 h1
      (by intro hx; rcases hx with hx | hx <;> simp [initState] at hx)
      (by intro hx; simp [initState] at hx)
  exact ⟨⟨r0, le_trans r1 (realizedCap_le_one _)⟩, rm, rev, r2⟩

/-- C6 witness: the amended invariant at the Scenario A/B replay. -/
theorem C6_partial_realized_amended_witness :
    (0 ≤ orQ sigAB.partial_realized 0 ∧
     orQ sigAB.partial_realized 0 ≤ realizedCap sigAB.status) ∧
    ((0 ≤ (replay (mkParams sigAB) (initState sigAB) [candA, candB]).1.partial_realized ∧
      (replay (mkParams sigAB) (initState sigAB) [candA, candB]).1.partial_realized ≤ 1) ∧
     orQ sigAB.partial_realized 0
       ≤ (replay (mkParams sigAB) (initState sigAB) [candA, candB]).1.partial_realized ∧
     (∀ e ∈ (replay (mkParams sigAB) (initState sigAB) [candA, candB]).2,
       (e.event = "hit_tp1" ∨ e.event = "hit_tp2") → e.fraction = some TP1_FRAC) ∧
     (((replay (mkParams sigAB) (initState sigAB) [candA, candB]).1.exit_level = some "tp3" ∨
       (replay (mkParams sigAB) (initState sigAB) [candA, candB]).1.exit_level = some "sl_trailing") →
       (replay (mkParams sigAB) (initState sigAB) [candA, candB]).1.partial_realized = 1)) := by
  refine ⟨⟨by norm_num [orQ, sigAB], by norm_num [orQ, realizedCap, sigAB]⟩, ?_⟩
  exact C6_partial_realized_amended sigAB [candA, candB]
    (by norm_num [orQ, sigAB]) (by norm_num [orQ, realizedCap, sigAB])

/-- C8: for a terminating replay that starts from `partial_realized = 0`,
the realized fractions (the logged TP tranches plus the remainder closed
by a breakeven or hard-stop exit) sum to exactly 1; the tranche constants
are 0.33 / 0.33 / 0.34 and themselves sum to 1. -/
theorem C8_fraction_sum (sig : RawSignal) (cs : List Candle)
    (hp : orQ sig.partial_realized 0 = 0)
    (hterm : (replay (mkParams sig) (initState sig) cs).1.finished = true) :
    realizedSum (replay (mkParams sig) (initState sig) cs).2
      (replay (mkParams sig) (initState sig) cs).1 = 1 ∧
    TP1_FRAC = 33/100 ∧ TP2_FRAC = 33/100 ∧ TP3_FRAC = 34/100 ∧
    TP1_FRAC + TP2_FRAC + TP3_FRAC = 1 := by
  have hinit : (initState sig).partial_realized = 0 := by
    simpa [initState] using hp
  obtain ⟨⟨r0, r1⟩, rm, r2, r3, rev, rsum⟩ :=
    replay_master (mkParams sig) (initState sig) cs
      (by rw [hinit])
      (by
        have hst : (initState sig).status = sig.status := rfl
        rw [hinit, hst]
        cases sig.status <;> norm_num [realizedCap])
      (by intro hx; rcases hx with hx | hx <;> simp [initState] at hx)
      (by intro hx; simp [initState] at hx)
  rw [hinit, sub_zero] at rsum
  refine ⟨?_, by norm_num [TP1_FRAC], by norm_num [TP2_FRAC], by norm_num [TP3_FRAC],
    by norm_num [TP1_FRAC, TP2_FRAC, TP3_FRAC]⟩
  have hfin := r3 hterm
  unfold realizedSum exitRemainder
  rcases hfin with hl | hl | hl | hl <;> rw [hl, rsum] <;> dsimp only
  · rw [if_pos (by decide)]
    ring
  · rw [if_pos (by decide)]
    ring
  · rw [if_neg (by decide)]
    rw [r2 (Or.inl hl)]
    ring
  · rw [if_neg (by decide)]
    rw [r2 (Or.inr hl)]
    ring

/-- C8 witness: the Scenario A/B replay terminates via the breakeven
exit and its realized fractions (0.33 logged at tp1 plus the 0.67
remainder closed at entry) sum to exactly 1. -/
theorem C8_fraction_sum_witness :
    orQ sigAB.partial_realized 0 = 0 ∧
    (replay (mkParams sigAB) (initState sigAB) [candA, candB]).1.finished = true ∧
    realizedSum (replay (mkParams sigAB) (initState sigAB) [candA, candB]).2
      (replay (mkParams sigAB) (initState sigAB) [candA, candB]).1 = 1 := by
  have hterm : (replay (mkParams sigAB) (initState sigAB) [candA, candB]).1.finished
      = true := by
    norm_num [replay, stepCandle, stepCore, stopBranch, targetBranch, tpChain,
      initState, mkParams, orQ, sigAB, candA, candB, hit_sl, hit_tp, sl_working,
      r_at, rabs, pymax, compute_mfe_mae, TP1_FRAC, TP2_FRAC, stringFacts]
  exact ⟨rfl, hterm,
    (C8_fraction_sum sigAB [candA, candB] rfl hterm).1⟩

/-- The only stop values the finalization ever persists are the two
ratchet targets: entry (after tp1 / breakeven) and tp1 (after tp2 /
trailing). -/
theorem mkUpdate_stop_loss_cases (p : Params) (fin : EvalState) (ns : ℚ)
    (h : (mkUpdate p fin).stop_loss = some ns) :
    ns = p.entry ∨ ns = p.tp1 := by
  unfold mkUpdate at h
  dsimp only at h
  rcases hea : fin.exit_at with _ | ea <;> rw [hea] at h <;>
  dsimp only [Option.isSome] at h
  · rcases hst : fin.status <;> rw [hst] at h <;> dsimp only at h <;>
    split_ifs at h <;> simp_all
  · rcases hel : fin.exit_level with _ | l <;> rw [hel] at h <;> dsimp only at h <;>
    rcases hst : fin.status <;> rw [hst] at h <;> dsimp only at h <;>
    split_ifs at h <;> simp_all

/-- C7 (amended): whenever the evaluator persists a new `stop_loss`, the
new value is `entry` or `tp1`; with well-ordered levels it therefore
moves only in the risk-reducing direction — strictly above the previous
stop for BUY and strictly below it for SELL — but possibly *past* entry
(the trailing stop tp1), hence not always closer to entry. -/
theorem C7_stop_ratchet_amended (sig : RawSignal) (cs : List Candle) (ns : ℚ)
    (hns : ((apply_state_machine sig cs).1.bind Update.stop_loss) = some ns) :
    (ns = (mkParams sig).entry ∨ ns = (mkParams sig).tp1) ∧
    ((mkParams sig).dire = "BUY" →
      (mkParams sig).sl_db < (mkParams sig).entry →
      (mkParams sig).entry < (mkParams sig).tp1 →
      (mkParams sig).sl_db < ns) ∧
    ((mkParams sig).dire ≠ "BUY" →
      (mkParams sig).entry < (mkParams sig).sl_db →
      (mkParams sig).tp1 < (mkParams sig).entry →
      ns < (mkParams sig).sl_db) := by
  have hcases : ns = (mkParams sig).entry ∨ ns = (mkParams sig).tp1 := by
    by_cases hm : requiredMissing sig ≠ []
    · rw [apply_state_machine_missing sig cs hm] at hns
      simp at hns
    · rcases Decidable.em (cs = []) with hcs | hcs
      · simp [apply_state_machine, hm, hcs] at hns
      · simp only [apply_state_machine, if_neg hm, if_neg hcs, Option.some_bind] at hns
        exact mkUpdate_stop_loss_cases (mkParams sig) _ ns hns
  refine ⟨hcases, ?_, ?_⟩ <;>
  · intro _ hlt1 hlt2
    rcases hcases with hv | hv <;> rw [hv] <;> linarith

/-- C7 witness: the amended ratchet at the tp2-touching replay — the
persisted stop 110 (= tp1) lies strictly above the previous stop 99. -/
theorem C7_stop_ratchet_amended_witness :
    ((apply_state_machine sigWide [candTp2]).1.bind Update.stop_loss
      = some 110) ∧
    ((110 : ℚ) = (mkParams sigWide).entry ∨ (110 : ℚ) = (mkParams sigWide).tp1) ∧
    (mkParams sigWide).sl_db < 110 := by
  have hns : ((apply_state_machine sigWide [candTp2]).1.bind Update.stop_loss)
      = some 110 := by
    norm_num [apply_state_machine, requiredMissing, falsyStr, falsyQ, stringFacts,
      sigWide, sigAB, candTp2, mkParams, initState, orQ, replay, stepCandle,
      stepCore, stopBranch, targetBranch, tpChain, sl_working, hit_sl, hit_tp,
      r_at, rabs, pymax, mkUpdate, compute_mfe_mae, TP1_FRAC, TP2_FRAC]
  have h := C7_stop_ratchet_amended sigWide [candTp2] 110 hns
  refine ⟨hns, h.1, ?_⟩
  exact h.2.1 (by norm_num [mkParams, sigWide, sigAB])
    (by norm_num [mkParams, sigWide, sigAB])
    (by norm_num [mkParams, sigWide, sigAB])

end TradingBot
